import Mathlib

/-
Verification of the clld data model (clld/db/models/common.py).

The definitions below are a shallow embedding of the mapper classes and
mixins of common.py.  Text columns are modelled as String (or Option String
where the nullable default matters), integer foreign keys as Option Nat,
the Float frequency column as Option Rat, and SQLAlchemy relationship
objects as fields holding the related record.  The surrogate key pk comes
from Base (clld.db.meta, outside this file) and is modelled as a Nat.

Assignment to a mapped attribute is modelled after the SQLAlchemy
validates mechanism: a validator function is registered under an attribute
name, and an assignment to attribute n runs the validator registered under
the key n, if any; a failing assert inside a validator is a fatal
AssertionError.  Python dict construction from a pair sequence is modelled
by pyDict below (position of a key is its first occurrence, value is the
one of the last occurrence).
-/

namespace Clld

/-- The Python error outcomes relevant to this model: a failed assert
inside a validator, and an attribute lookup miss. -/
inductive PyError
  | assertionError
  | attributeError
deriving DecidableEq

instance {ε α : Type} [DecidableEq ε] [DecidableEq α] : DecidableEq (Except ε α) := fun a b =>
  match a, b with
  | .ok x, .ok y =>
    if h : x = y then .isTrue (by rw [h]) else .isFalse (by intro hc; cases hc; exact h rfl)
  | .error x, .error y =>
    if h : x = y then .isTrue (by rw [h]) else .isFalse (by intro hc; cases hc; exact h rfl)
  | .ok _, .error _ => .isFalse (by intro hc; cases hc)
  | .error _, .ok _ => .isFalse (by intro hc; cases hc)

/-- One step of Python dict construction: d[k] = v.  If k is already a key
of the dict, its stored value is replaced in place (the position of k is
unchanged); otherwise the pair is appended at the end. -/
def dictInsert {κ ν : Type} [DecidableEq κ] (m : List (κ × ν)) (k : κ) (v : ν) :
    List (κ × ν) :=
  if m.any (fun p => p.1 == k) then m.map (fun p => if p.1 == k then (k, v) else p)
  else m ++ [(k, v)]

/-- Python dict built from a sequence of key-value pairs, represented as
its ordered association list. -/
def pyDict {κ ν : Type} [DecidableEq κ] (ps : List (κ × ν)) : List (κ × ν) :=
  ps.foldl (fun m p => dictInsert m p.1 p.2) []

/-- Model of class File (common.py lines 50-55): name, mime_type and
binary content columns. -/
structure File where
  pk : Nat := 0
  name : Option String := none
  mime_type : Option String := none
  content : List UInt8 := []
deriving DecidableEq

/-- Model of a row of an <Owner>_files table (FilesMixin, common.py lines
58-82): a name, an ordinal defaulting to 1, foreign keys to the file and
to the owning object, and the file relationship.  The commented-out
declared_attr object (lines 80-82) would have installed a files backref on
the owner; as shipped it does not exist. -/
structure FileRecord where
  name : Option String := none
  ord : Int := 1
  file_pk : Option Nat := none
  object_pk : Option Nat := none
  file : Option File := none
deriving DecidableEq

/-- Model of a row of an <Owner>_data table (DataMixin, common.py lines
101-119): a key-value pair of strings plus an ordinal defaulting to 1 and
a foreign key to the owning object. -/
structure DataRecord where
  key : Option String := none
  value : Option String := none
  ord : Int := 1
  object_pk : Option Nat := none
deriving DecidableEq

/-- The annotation state every core entity receives from HasDataMixin and
HasFilesMixin: the rows of its data table and of its files table. -/
structure Entity where
  dataRecords : List DataRecord := []
  fileRecords : List FileRecord := []
deriving DecidableEq

/-- Attribute names under which declarative maps the annotation
collections onto an owning entity.  HasDataMixin declares its relationship
under the name data (line 133), and HasFilesMixin also declares its
relationship under the name data (line 96, a slip: the method wrapping
relationship(cls.__name__ + _files) is called data, not files).  Every
core entity lists HasDataMixin before HasFilesMixin in its base classes,
so attribute resolution finds the HasDataMixin declaration and the file
relationship is never mapped under any name; the files backref that
FilesMixin could have contributed is commented out (lines 80-82).  Hence
the one mapped collection attribute is data, bound to the data table. -/
def mixinCollectionAttrs : List String := ["data"]

/-- Attribute read self.data as performed by datadict (line 131):
succeeds because data is a mapped collection attribute. -/
def Entity.dataAttr (e : Entity) : Except PyError (List DataRecord) :=
  if "data" ∈ mixinCollectionAttrs then .ok e.dataRecords else .error .attributeError

/-- Attribute read self.files as performed by filesdict (line 94):
succeeds only if some mapped attribute is named files. -/
def Entity.filesAttr (e : Entity) : Except PyError (List FileRecord) :=
  if "files" ∈ mixinCollectionAttrs then .ok e.fileRecords else .error .attributeError

/-- HasDataMixin.datadict (common.py line 130-131): dict((d.key, d.value)
for d in self.data). -/
def Entity.datadict (e : Entity) : Except PyError (List (Option String × Option String)) :=
  (e.dataAttr).map fun ds => pyDict (ds.map fun d => (d.key, d.value))

/-- HasFilesMixin.filesdict (common.py line 93-94): dict((f.name, f.file)
for f in self.files). -/
def Entity.filesdict (e : Entity) : Except PyError (List (Option String × Option File)) :=
  (e.filesAttr).map fun fs => pyDict (fs.map fun f => (f.name, f.file))

/-- Reconstruction direction of the round trip for data annotations: one
data record per mapping entry, with the defaulted ordinal. -/
def datadictReconstruct (m : List (Option String × Option String)) : List DataRecord :=
  m.map fun p => { key := p.1, value := p.2 }

/-- Model of class Language (common.py lines 159-172): id, name,
description from IdNameDescriptionMixin, plus the geo coordinates.  Object
identity of a row is modelled by structural equality; distinct rows carry
distinct pk values. -/
structure Language where
  pk : Nat := 0
  id : Option String := none
  name : Option String := none
  description : Option String := none
  latitude : Option Rat := none
  longitude : Option Rat := none
deriving DecidableEq

/-- Model of class DomainElement (common.py lines 183-192): an admissible
value of a Parameter, with a foreign key to its parameter. -/
structure DomainElement where
  pk : Nat := 0
  id : Option String := none
  name : Option String := none
  description : Option String := none
  parameter_pk : Option Nat := none
deriving DecidableEq

/-- Model of class Value (common.py lines 277-310): the columns, the
language and domainelement relationship objects (the parameter and
contribution object sides are omitted here, being determined by their
foreign keys and cyclic with the backref collections). -/
structure Value where
  pk : Nat := 0
  id : Option String := none
  name : Option String := none
  description : Option String := none
  language_pk : Option Nat := none
  parameter_pk : Option Nat := none
  contribution_pk : Option Nat := none
  domainelement_pk : Option Nat := none
  frequency : Option Rat := none
  language : Option Language := none
  domainelement : Option DomainElement := none
deriving DecidableEq

/-- itertools.groupby: splits a list into maximal runs of elements with
equal key, yielding one (key, run) pair per run, in encounter order. -/
def groupby {α κ : Type} [DecidableEq κ] (key : α → κ) : List α → List (κ × List α)
  | [] => []
  | x :: xs =>
    match groupby key xs with
    | [] => [(key x, [x])]
    | (k, g) :: rest =>
      if key x = k then (key x, x :: g) :: rest
      else (key x, [x]) :: (k, g) :: rest

/-- Model of class Parameter (common.py lines 205-218) with its values
backref (from Value.parameter, line 295) and its domain collection
(ordered by DomainElement.id, line 213). -/
structure Parameter where
  pk : Nat := 0
  id : Option String := none
  name : Option String := none
  description : Option String := none
  domain : List DomainElement := []
  values : List Value := []
deriving DecidableEq

/-- Parameter.languages (common.py lines 215-218): the generator iterates
groupby(self.values, lambda v: v.language) and yields only the key
language of each run, not the run of values. -/
def Parameter.languages (p : Parameter) : List (Option Language) :=
  (groupby (fun v => v.language) p.values).map Prod.fst

/-- A value yielded by a Python generator over possibly heterogeneous
items, dynamically typed: either a bare language object (possibly None) or
a (language, values) 2-tuple. -/
inductive LangYield
  | lang : Option Language → LangYield
  | pair : Option Language → List Value → LangYield
deriving DecidableEq

/-- Dynamic view of the Parameter.languages generator: the loop header
destructures each (key, group) pair of groupby into language and values,
and the body yields the bare object language (line 218). -/
def Parameter.languagesDyn (p : Parameter) : List LangYield :=
  (groupby (fun v => v.language) p.values).map fun g => LangYield.lang g.1

/-- The validates registrations on Value: the single decorator at
common.py line 303 registers validate_parameter_pk under the attribute
key parameter_pk. -/
def Value.validatorKeys : List String := ["parameter_pk"]

/-- Value.validate_parameter_pk (common.py lines 303-310): if a
domainelement is present, assert that its parameter_pk equals the incoming
parameter_pk; return the incoming value. -/
def Value.validate_parameter_pk (v : Value) (parameter_pk : Option Nat) :
    Except PyError (Option Nat) :=
  match v.domainelement with
  | some de => if de.parameter_pk = parameter_pk then .ok parameter_pk
               else .error .assertionError
  | none => .ok parameter_pk

/-- Assignment of the parameter_pk attribute of a Value: the attribute
name is a registered validator key, so the validator runs and its result
is stored; its assert aborts the assignment. -/
def Value.setParameterPk (v : Value) (pk : Option Nat) : Except PyError Value :=
  if "parameter_pk" ∈ Value.validatorKeys then
    (v.validate_parameter_pk pk).map fun r => { v with parameter_pk := r }
  else .ok { v with parameter_pk := pk }

/-- Assignment of the domainelement relationship of a Value: no validator
is registered under the attribute name domainelement, so the ORM applies
the assignment without interception. -/
def Value.setDomainelement (v : Value) (de : Option DomainElement) : Except PyError Value :=
  if "domainelement" ∈ Value.validatorKeys then .error .assertionError
  else .ok { v with domainelement := de }

/-- The two assignments on a Value that the domain-consistency invariant
concerns. -/
inductive ValueOp
  | setParameterPk (pk : Option Nat)
  | setDomainelement (de : Option DomainElement)

/-- Run one assignment. -/
def Value.applyOp (v : Value) : ValueOp → Except PyError Value
  | .setParameterPk pk => v.setParameterPk pk
  | .setDomainelement de => v.setDomainelement de

/-- Run a sequence of assignments, stopping at the first fatal error. -/
def Value.applyOps (v : Value) : List ValueOp → Except PyError Value
  | [] => .ok v
  | op :: ops =>
    match v.applyOp op with
    | .ok w => w.applyOps ops
    | .error e => .error e
/-- Model of class UnitDomainElement (common.py lines 378-388): an
admissible value of a UnitParameter. -/
structure UnitDomainElement where
  pk : Nat := 0
  id : Option String := none
  name : Option String := none
  description : Option String := none
  unitparameter_pk : Option Nat := none
  ord : Option Int := none
deriving DecidableEq

/-- Model of class UnitValue (common.py lines 417-450): the columns and
the unitdomainelement relationship object. -/
structure UnitValue where
  pk : Nat := 0
  id : Option String := none
  name : Option String := none
  description : Option String := none
  unit_pk : Option Nat := none
  unitparameter_pk : Option Nat := none
  contribution_pk : Option Nat := none
  unitdomainelement_pk : Option Nat := none
  frequency : Option Rat := none
  unitdomainelement : Option UnitDomainElement := none
deriving DecidableEq

/-- The validates registrations on UnitValue: the decorator at common.py
line 443 registers UnitValue.validate_parameter_pk under the attribute key
parameter_pk, exactly as on Value.  UnitValue has no mapped attribute of
that name; its column is unitparameter_pk (line 425). -/
def UnitValue.validatorKeys : List String := ["parameter_pk"]

/-- UnitValue.validate_parameter_pk (common.py lines 443-450): if a
unitdomainelement is present, assert that its unitparameter_pk equals the
incoming value; return the incoming value. -/
def UnitValue.validate_parameter_pk (u : UnitValue) (unitparameter_pk : Option Nat) :
    Except PyError (Option Nat) :=
  match u.unitdomainelement with
  | some de => if de.unitparameter_pk = unitparameter_pk then .ok unitparameter_pk
               else .error .assertionError
  | none => .ok unitparameter_pk

/-- Assignment of the unitparameter_pk attribute of a UnitValue: a
validator runs only if one is registered under the assigned attribute
name. -/
def UnitValue.setUnitparameterPk (u : UnitValue) (pk : Option Nat) : Except PyError UnitValue :=
  if "unitparameter_pk" ∈ UnitValue.validatorKeys then
    (u.validate_parameter_pk pk).map fun r => { u with unitparameter_pk := r }
  else .ok { u with unitparameter_pk := pk }

/-- The closed enumeration of identifier types accepted by
Identifier.validate_type (common.py line 465). -/
def Identifier.validTypes : List String := ["wals", "iso639-3", "glottolog"]

/-- Model of class Identifier (common.py lines 456-476). -/
structure Identifier where
  pk : Nat := 0
  id : Option String := none
  name : Option String := none
  description : Option String := none
  type : Option String := none
deriving DecidableEq

/-- The validates registrations on Identifier: the decorator at common.py
line 463 registers validate_type under the attribute key type. -/
def Identifier.validatorKeys : List String := ["type"]

/-- Identifier.validate_type (common.py lines 463-466): assert membership
in the closed enumeration; return the incoming value. -/
def Identifier.validate_type (t : String) : Except PyError String :=
  if t ∈ Identifier.validTypes then .ok t else .error .assertionError

/-- Assignment of the type attribute of an Identifier: the attribute name
is a registered validator key, so the validator runs. -/
def Identifier.setType (i : Identifier) (t : String) : Except PyError Identifier :=
  if "type" ∈ Identifier.validatorKeys then
    (Identifier.validate_type t).map fun r => { i with type := some r }
  else .ok { i with type := some t }

/-- Model of class Contributor (common.py lines 321-331). -/
structure Contributor where
  pk : Nat := 0
  id : Option String := none
  name : Option String := none
  description : Option String := none
  url : Option String := none
  email : Option String := none
  address : Option String := none
deriving DecidableEq

/-- Model of class ContributionContributor (common.py lines 530-543): the
ordered many-to-many association between contributions and contributors,
with the column defaults ord = 1 (line 537) and primary = True (line 540)
applied when the attribute is not supplied, and the contributor
relationship object (line 543; the contribution side is cyclic with the
contributor_assocs backref and is represented by contribution_pk). -/
structure ContributionContributor where
  pk : Nat := 0
  contribution_pk : Option Nat := none
  contributor_pk : Option Nat := none
  ord : Int := 1
  primary : Bool := true
  contributor : Contributor
deriving DecidableEq

/-- An association constructed supplying only the foreign keys and the
contributor object: ord and primary take their defaults. -/
def ContributionContributor.mkDefault (cb cr : Option Nat) (p : Contributor) :
    ContributionContributor :=
  { contribution_pk := cb, contributor_pk := cr, contributor := p }

/-- The comparison used by sorted(self.contributor_assocs, key=lambda a:
a.ord) in common.py lines 261 and 266. -/
def assocOrd (a b : ContributionContributor) : Prop := a.ord ≤ b.ord

instance : DecidableRel assocOrd := fun a b => Int.decLe a.ord b.ord

instance : IsTotal ContributionContributor assocOrd := ⟨fun a b => Int.le_total a.ord b.ord⟩

instance : IsTrans ContributionContributor assocOrd := ⟨fun _ _ _ h h2 => le_trans h h2⟩

/-- Model of class Contribution (common.py lines 248-266) with its
contributor_assocs backref (line 542).  The date column is abstracted to
an ordinal day number. -/
structure Contribution where
  pk : Nat := 0
  id : Option String := none
  name : Option String := none
  description : Option String := none
  date : Option Nat := none
  contributor_assocs : List ContributionContributor := []
deriving DecidableEq

/-- sorted(self.contributor_assocs, key=lambda a: a.ord) as evaluated in
both properties: a stable sort by the ord column. -/
def Contribution.sortedAssocs (c : Contribution) : List ContributionContributor :=
  List.insertionSort assocOrd c.contributor_assocs

/-- Contribution.primary_contributors (common.py lines 258-261). -/
def Contribution.primary_contributors (c : Contribution) : List Contributor :=
  ((c.sortedAssocs).filter fun a => a.primary).map fun a => a.contributor

/-- Contribution.secondary_contributors (common.py lines 263-266). -/
def Contribution.secondary_contributors (c : Contribution) : List Contributor :=
  ((c.sortedAssocs).filter fun a => !a.primary).map fun a => a.contributor

/-- Model of class ValueReference (common.py lines 509-517), with the key
and description columns of HasSourceMixin (lines 496-506).  The citation
key is modelled as a string; rows never carry a NULL key in the claims
considered here. -/
structure ValueReference where
  pk : Nat := 0
  key : String := ""
  description : Option String := none
  source_pk : Option Nat := none
  value_pk : Option Nat := none
deriving DecidableEq

/-- Model of class SentenceReference (common.py lines 520-527). -/
structure SentenceReference where
  pk : Nat := 0
  key : String := ""
  description : Option String := none
  source_pk : Option Nat := none
  sentence_pk : Option Nat := none
deriving DecidableEq

/-- The ordering relation order_by=cls.key of the references backref of
Value (common.py line 517): ascending lexicographic comparison of the
citation keys. -/
def valueRefLe (a b : ValueReference) : Prop := a.key ≤ b.key

instance : DecidableRel valueRefLe := fun a b => String.decidableLE a.key b.key

instance : IsTotal ValueReference valueRefLe := ⟨fun a b => le_total a.key b.key⟩

instance : IsTrans ValueReference valueRefLe := ⟨fun _ _ _ h h2 => le_trans h h2⟩

/-- The ordering relation order_by=cls.key of the references backref of
Sentence (common.py line 527). -/
def sentenceRefLe (a b : SentenceReference) : Prop := a.key ≤ b.key

instance : DecidableRel sentenceRefLe := fun a b => String.decidableLE a.key b.key

instance : IsTotal SentenceReference sentenceRefLe := ⟨fun a b => le_total a.key b.key⟩

instance : IsTrans SentenceReference sentenceRefLe := ⟨fun _ _ _ h h2 => le_trans h h2⟩

/-- The references collection of the Value with primary key value_pk,
given the stored ValueReference rows: the rows pointing at the owner,
ordered by the citation key (common.py lines 515-517). -/
def valueReferences (rows : List ValueReference) (value_pk : Nat) : List ValueReference :=
  List.insertionSort valueRefLe (rows.filter fun r => r.value_pk == some value_pk)

/-- The references collection of the Sentence with primary key
sentence_pk, given the stored SentenceReference rows (common.py lines
525-527). -/
def sentenceReferences (rows : List SentenceReference) (sentence_pk : Nat) :
    List SentenceReference :=
  List.insertionSort sentenceRefLe (rows.filter fun r => r.sentence_pk == some sentence_pk)
/-! Helper lemmas about the embedded operations. -/

theorem groupby_cons_of_nil {α κ : Type} [DecidableEq κ] (key : α → κ) (x : α)
    (xs : List α) (h : groupby key xs = []) : groupby key (x :: xs) = [(key x, [x])] := by
  unfold groupby
  rw [h]

theorem groupby_cons_of_cons {α κ : Type} [DecidableEq κ] (key : α → κ) (x : α)
    (xs : List α) (k : κ) (g : List α) (rest : List (κ × List α))
    (h : groupby key xs = (k, g) :: rest) :
    groupby key (x :: xs) =
      if key x = k then (key x, x :: g) :: rest
      else (key x, [x]) :: (k, g) :: rest := by
  unfold groupby
  rw [h]

theorem groupby_flatten {α κ : Type} [DecidableEq κ] (key : α → κ) (l : List α) :
    ((groupby key l).map Prod.snd).flatten = l := by
  induction l with
  | nil => rfl
  | cons x xs ih =>
    cases h : groupby key xs with
    | nil =>
      rw [h] at ih
      simp only [List.map_nil, List.flatten_nil] at ih
      rw [groupby_cons_of_nil key x xs h]
      simp [ih.symm]
    | cons g rest =>
      obtain ⟨k, grp⟩ := g
      rw [h] at ih
      simp only [List.map_cons, List.flatten_cons] at ih
      rw [groupby_cons_of_cons key x xs k grp rest h]
      by_cases hk : key x = k
      · rw [if_pos hk]
        simp only [List.map_cons, List.flatten_cons, List.cons_append, ih]
      · rw [if_neg hk]
        simp only [List.map_cons, List.flatten_cons, List.singleton_append, ih]

theorem groupby_mem {α κ : Type} [DecidableEq κ] (key : α → κ) (l : List α) :
    ∀ g ∈ groupby key l, g.2 ≠ [] ∧ ∀ a ∈ g.2, key a = g.1 := by
  induction l with
  | nil => intro g hg; cases hg
  | cons x xs ih =>
    intro g hg
    cases h : groupby key xs with
    | nil =>
      rw [groupby_cons_of_nil key x xs h] at hg
      rcases List.mem_singleton.mp hg with rfl
      refine ⟨List.cons_ne_nil x [], ?_⟩
      intro a ha
      rcases List.mem_singleton.mp ha with rfl
      rfl
    | cons g0 rest =>
      obtain ⟨k, grp⟩ := g0
      rw [groupby_cons_of_cons key x xs k grp rest h] at hg
      rw [h] at ih
      by_cases hk : key x = k
      · rw [if_pos hk] at hg
        rcases List.mem_cons.mp hg with rfl | hg2
        · refine ⟨List.cons_ne_nil x grp, ?_⟩
          intro a ha
          rcases List.mem_cons.mp ha with rfl | ha2
          · rfl
          · have h2 := (ih (k, grp) (List.mem_cons_self _ _)).2 a ha2
            exact h2.trans hk.symm
        · exact ih g (List.mem_cons_of_mem _ hg2)
      · rw [if_neg hk] at hg
        rcases List.mem_cons.mp hg with rfl | hg2
        · refine ⟨List.cons_ne_nil x [], ?_⟩
          intro a ha
          rcases List.mem_singleton.mp ha with rfl
          rfl
        · exact ih g hg2

theorem groupby_chain {α κ : Type} [DecidableEq κ] (key : α → κ) (l : List α) :
    (groupby key l).Chain' (fun a b => a.1 ≠ b.1) := by
  induction l with
  | nil => exact List.chain'_nil
  | cons x xs ih =>
    cases h : groupby key xs with
    | nil => rw [groupby_cons_of_nil key x xs h]; simp
    | cons g0 rest =>
      obtain ⟨k, grp⟩ := g0
      rw [groupby_cons_of_cons key x xs k grp rest h]
      rw [h] at ih
      by_cases hk : key x = k
      · rw [if_pos hk]
        refine List.Chain'.cons' ih.tail ?_
        intro y hy
        have h1 := (List.chain'_cons'.mp ih).1 y hy
        simpa [hk] using h1
      · rw [if_neg hk]
        exact List.Chain'.cons hk ih

theorem Value.applyOps_append (l₁ l₂ : List ValueOp) : ∀ v : Value,
    Value.applyOps v (l₁ ++ l₂) =
      match Value.applyOps v l₁ with
      | .ok w => Value.applyOps w l₂
      | .error e => .error e := by
  induction l₁ with
  | nil => intro v; rfl
  | cons op ops ih =>
    intro v
    simp only [List.cons_append, Value.applyOps]
    cases v.applyOp op with
    | ok w => exact ih w
    | error e => rfl

theorem pyDict_concat {κ ν : Type} [DecidableEq κ] (ps : List (κ × ν)) (p : κ × ν) :
    pyDict (ps ++ [p]) = dictInsert (pyDict ps) p.1 p.2 := by
  unfold pyDict
  rw [List.foldl_append]
  rfl

theorem find?_cons_pos {α : Type} (p : α → Bool) (a : α) (l : List α) (h : p a = true) :
    (a :: l).find? p = some a := List.find?_cons_of_pos l h

theorem find?_cons_neg {α : Type} (p : α → Bool) (a : α) (l : List α) (h : p a = false) :
    (a :: l).find? p = l.find? p := List.find?_cons_of_neg l (by simp [h])

theorem find?_mapReplace_eq {κ ν : Type} [DecidableEq κ] (k : κ) (v : ν) :
    ∀ m : List (κ × ν), m.any (fun p => p.1 == k) = true →
      (m.map fun p => if p.1 == k then (k, v) else p).find? (fun p => p.1 == k) = some (k, v)
  | [], h => by cases h
  | q :: m, h => by
    rw [List.map_cons]
    by_cases hq : q.1 = k
    · have hq2 : (q.1 == k) = true := beq_iff_eq.mpr hq
      rw [if_pos hq2]
      exact find?_cons_pos (fun r => r.1 == k) (k, v) _ (by simp)
    · have hq2 : (q.1 == k) = false := by simp [hq]
      have hm : m.any (fun p => p.1 == k) = true := by
        simpa [List.any_cons, hq] using h
      rw [if_neg (by simp [hq2]), find?_cons_neg (fun r => r.1 == k) q _ hq2]
      exact find?_mapReplace_eq k v m hm

theorem find?_mapReplace_ne {κ ν : Type} [DecidableEq κ] (k k' : κ) (v : ν) (hne : k' ≠ k) :
    ∀ m : List (κ × ν),
      (m.map fun p => if p.1 == k then (k, v) else p).find? (fun p => p.1 == k') =
        m.find? (fun p => p.1 == k')
  | [] => rfl
  | q :: m => by
    rw [List.map_cons]
    by_cases hq : q.1 = k
    · have hq' : (q.1 == k') = false := by
        simp only [hq, beq_eq_false_iff_ne, ne_eq]
        exact fun h2 => hne h2.symm
      have hkk' : ((k, v).1 == k') = false := by
        simp only [beq_eq_false_iff_ne, ne_eq]
        exact fun h2 => hne h2.symm
      rw [if_pos (beq_iff_eq.mpr hq), find?_cons_neg (fun r => r.1 == k') (k, v) _ hkk',
        find?_cons_neg (fun r => r.1 == k') q _ hq']
      exact find?_mapReplace_ne k k' v hne m
    · have hq2 : (q.1 == k) = false := by simp [hq]
      rw [if_neg (by simp [hq2])]
      by_cases hq' : q.1 = k'
      · rw [find?_cons_pos (fun r => r.1 == k') q _ (beq_iff_eq.mpr hq'),
          find?_cons_pos (fun r => r.1 == k') q _ (beq_iff_eq.mpr hq')]
      · have hq'2 : (q.1 == k') = false := by simp [hq']
        rw [find?_cons_neg (fun r => r.1 == k') q _ hq'2,
          find?_cons_neg (fun r => r.1 == k') q _ hq'2]
        exact find?_mapReplace_ne k k' v hne m

theorem any_key_eq_false {κ ν : Type} [DecidableEq κ] (m : List (κ × ν)) (k : κ)
    (h : k ∉ m.map Prod.fst) : m.any (fun p => p.1 == k) = false := by
  rw [List.any_eq_false]
  intro p hp
  simp only [beq_iff_eq]
  intro hk
  exact h (hk ▸ List.mem_map_of_mem Prod.fst hp)

theorem find?_not_mem {κ ν : Type} [DecidableEq κ] (k : κ) (m : List (κ × ν))
    (h : m.any (fun p => p.1 == k) = false) : m.find? (fun p => p.1 == k) = none := by
  rw [List.find?_eq_none]
  intro x hx
  have h2 := List.any_eq_false.mp h x hx
  exact fun hc => h2 hc

theorem dictInsert_find? {κ ν : Type} [DecidableEq κ] (m : List (κ × ν)) (k : κ) (v : ν)
    (k' : κ) :
    (dictInsert m k v).find? (fun p => p.1 == k') =
      if k' = k then some (k, v) else m.find? (fun p => p.1 == k') := by
  unfold dictInsert
  by_cases hany : m.any (fun p => p.1 == k) = true
  · rw [if_pos hany]
    by_cases hk : k' = k
    · rw [hk, if_pos rfl]
      exact find?_mapReplace_eq k v m hany
    · rw [if_neg hk]
      exact find?_mapReplace_ne k k' v hk m
  · rw [if_neg hany]
    have hf : m.any (fun p => p.1 == k) = false := Bool.eq_false_iff.mpr hany
    rw [List.find?_append]
    by_cases hk : k' = k
    · rw [hk, if_pos rfl, find?_not_mem k m hf]
      rw [find?_cons_pos (fun r => r.1 == k) (k, v) [] (by simp)]
      rfl
    · rw [if_neg hk]
      have hnone : List.find? (fun p => p.1 == k') [(k, v)] = none := by
        rw [find?_cons_neg (fun r => r.1 == k') (k, v) []
          (by simp only [beq_eq_false_iff_ne, ne_eq]; exact fun h2 => hk h2.symm)]
        rfl
      rw [hnone, Option.or_none]

theorem pyDict_find? {κ ν : Type} [DecidableEq κ] (ps : List (κ × ν)) (k : κ) :
    (pyDict ps).find? (fun p => p.1 == k) = ps.reverse.find? (fun p => p.1 == k) := by
  induction ps using List.reverseRecOn with
  | nil => rfl
  | append_singleton ps p ih =>
    rw [pyDict_concat, dictInsert_find?, List.reverse_append]
    simp only [List.reverse_cons, List.reverse_nil, List.nil_append, List.singleton_append]
    by_cases hk : k = p.1
    · rw [if_pos hk]
      subst hk
      rw [find?_cons_pos (fun r => r.1 == p.1) p _ (by simp)]
    · rw [if_neg hk, ih]
      rw [find?_cons_neg (fun r => r.1 == k) p _
        (by simp only [beq_eq_false_iff_ne, ne_eq]; exact fun h2 => hk h2.symm)]

theorem pyDict_nodup {κ ν : Type} [DecidableEq κ] (ps : List (κ × ν))
    (h : (ps.map Prod.fst).Nodup) : pyDict ps = ps := by
  induction ps using List.reverseRecOn with
  | nil => rfl
  | append_singleton ps p ih =>
    rw [List.map_append, List.nodup_append] at h
    obtain ⟨h1, _, hdis⟩ := h
    have hnot : p.1 ∉ ps.map Prod.fst := fun hmem =>
      hdis hmem (by simp)
    rw [pyDict_concat, ih h1]
    unfold dictInsert
    rw [if_neg (by rw [any_key_eq_false ps p.1 hnot]; exact Bool.false_ne_true)]
theorem Value.applyOps_singleton (w : Value) (op : ValueOp) :
    Value.applyOps w [op] = w.applyOp op := by
  unfold Value.applyOps
  cases w.applyOp op with
  | ok u => rfl
  | error e => rfl

theorem Value.setParameterPk_eq (v : Value) (pk : Option Nat) :
    v.setParameterPk pk =
      match v.domainelement with
      | some de =>
        if de.parameter_pk = pk then .ok { v with parameter_pk := pk }
        else .error .assertionError
      | none => .ok { v with parameter_pk := pk } := by
  have hmem : "parameter_pk" ∈ Value.validatorKeys := by simp [Value.validatorKeys]
  cases hde : v.domainelement with
  | none =>
    simp [Value.setParameterPk, if_pos hmem, Value.validate_parameter_pk, hde, Except.map]
  | some de =>
    by_cases h : de.parameter_pk = pk
    · simp [Value.setParameterPk, if_pos hmem, Value.validate_parameter_pk, hde, h, Except.map]
    · simp [Value.setParameterPk, if_pos hmem, Value.validate_parameter_pk, hde, h, Except.map]

/-- C1: assigning a parameter_pk to a Value whose domainelement is set
fails with an AssertionError when the domainelement belongs to a different
parameter and succeeds, storing the assigned value, when it matches; and
after any successful assignment sequence whose last step assigns the
parameter, the domainelement of the result belongs to the parameter of
the result. -/
theorem value_parameter_assignment_enforces_domain_sync (v : Value) (pk : Option Nat) :
    (∀ de : DomainElement, v.domainelement = some de →
      (de.parameter_pk ≠ pk → v.setParameterPk pk = .error .assertionError) ∧
      (de.parameter_pk = pk → v.setParameterPk pk = .ok { v with parameter_pk := pk })) ∧
    (∀ (ops : List ValueOp) (v' : Value),
      Value.applyOps v (ops ++ [ValueOp.setParameterPk pk]) = .ok v' →
      ∀ de : DomainElement, v'.domainelement = some de →
        de.parameter_pk = v'.parameter_pk) := by
  constructor
  · intro de hde
    constructor
    · intro hne
      rw [Value.setParameterPk_eq, hde]
      dsimp only
      rw [if_neg hne]
    · intro heq
      rw [Value.setParameterPk_eq, hde]
      dsimp only
      rw [if_pos heq]
  · intro ops v' h de hde
    rw [Value.applyOps_append] at h
    cases hops : Value.applyOps v ops with
    | error e => rw [hops] at h; cases h
    | ok w =>
      rw [hops] at h
      dsimp only at h
      rw [Value.applyOps_singleton] at h
      dsimp only [Value.applyOp] at h
      rw [Value.setParameterPk_eq] at h
      cases hwde : w.domainelement with
      | none =>
        rw [hwde] at h
        cases h
        simp at hde
      | some d =>
        rw [hwde] at h
        dsimp only at h
        by_cases hd : d.parameter_pk = pk
        · rw [if_pos hd] at h
          cases h
          obtain rfl : d = de := by simpa using hde
          simpa using hd
        · rw [if_neg hd] at h
          cases h

/-- Witness for C1: a concrete Value whose domainelement belongs to
parameter 1 accepts the assignment of parameter 1. -/
theorem value_parameter_assignment_enforces_domain_sync_app :
    ({ domainelement := some { pk := 5, parameter_pk := some 1 } } : Value).setParameterPk
      (some 1) =
      .ok { ({ domainelement := some { pk := 5, parameter_pk := some 1 } } : Value) with
              parameter_pk := some 1 } :=
  ((value_parameter_assignment_enforces_domain_sync _ (some 1)).1 _ rfl).2 rfl

theorem getLast?_getD_cons {α : Type} (e : α) (es : List α) (x y : α) :
    ((e :: es).getLast?).getD x = ((e :: es).getLast?).getD y := by
  induction es generalizing e with
  | nil => rfl
  | cons f fs ih => rw [List.getLast?_cons_cons]; exact ih f

/-- C6: assigning a domainelement to a Value never runs the
domain-consistency validator: any sequence of domainelement assignments
succeeds unconditionally, whatever the parameter of the assigned domain
elements, and leaves the last assigned domain element in place. -/
theorem value_domainelement_assignment_unchecked (v : Value)
    (des : List (Option DomainElement)) :
    Value.applyOps v (des.map ValueOp.setDomainelement) =
      .ok { v with domainelement := (des.getLast?).getD v.domainelement } := by
  induction des generalizing v with
  | nil => rfl
  | cons d ds ih =>
    have hstep : v.applyOp (ValueOp.setDomainelement d) = .ok { v with domainelement := d } := by
      simp [Value.applyOp, Value.setDomainelement, Value.validatorKeys]
    simp only [List.map_cons, Value.applyOps, hstep]
    rw [ih]
    cases ds with
    | nil => rfl
    | cons e es =>
      rw [List.getLast?_cons_cons]
      rw [getLast?_getD_cons e es d v.domainelement]

/-- A concrete UnitValue whose unitdomainelement belongs to unitparameter
1; the failing input of C2. -/
def unitValueEx : UnitValue :=
  { unitdomainelement := some { pk := 7, unitparameter_pk := some 1 } }

/-- C2: the domain-consistency check is NOT enforced on assignment of the
unit-parameter reference of a UnitValue: the validator is registered
under the attribute key parameter_pk, which is not an attribute of
UnitValue, so assigning unitparameter_pk = 2 to a UnitValue whose
unitdomainelement belongs to unitparameter 1 succeeds silently, although
the embedded validator body itself would have rejected it; in general the
assignment never fails. -/
theorem unitvalue_unitparameter_assignment_not_validated :
    unitValueEx.setUnitparameterPk (some 2) =
      .ok { unitValueEx with unitparameter_pk := some 2 } ∧
    UnitValue.validate_parameter_pk unitValueEx (some 2) = .error .assertionError ∧
    (∀ (u : UnitValue) (pk : Option Nat),
      u.setUnitparameterPk pk = .ok { u with unitparameter_pk := pk }) := by
  refine ⟨by decide, by decide, ?_⟩
  intro u pk
  rw [UnitValue.setUnitparameterPk, if_neg (by simp [UnitValue.validatorKeys])]

/-- C7: assigning a type to an Identifier succeeds exactly for the three
members of the closed enumeration, fails with an AssertionError for every
other string, and every successful assignment stores a member of the
enumeration. -/
theorem identifier_type_closed_enumeration (i : Identifier) (t : String) :
    (t ∈ Identifier.validTypes → i.setType t = .ok { i with type := some t }) ∧
    (t ∉ Identifier.validTypes → i.setType t = .error .assertionError) ∧
    (∀ i', i.setType t = .ok i' →
      ∃ t', t' ∈ Identifier.validTypes ∧ i'.type = some t') := by
  have hmem : "type" ∈ Identifier.validatorKeys := by simp [Identifier.validatorKeys]
  refine ⟨?_, ?_, ?_⟩
  · intro ht
    rw [Identifier.setType, if_pos hmem, Identifier.validate_type, if_pos ht]
    rfl
  · intro ht
    rw [Identifier.setType, if_pos hmem, Identifier.validate_type, if_neg ht]
    rfl
  · intro i' h
    rw [Identifier.setType, if_pos hmem, Identifier.validate_type] at h
    by_cases ht : t ∈ Identifier.validTypes
    · rw [if_pos ht] at h
      refine ⟨t, ht, ?_⟩
      simp only [Except.map] at h
      cases h
      rfl
    · rw [if_neg ht] at h
      simp only [Except.map] at h
      cases h

/-- Witness for C7: wals is accepted, foo is rejected. -/
theorem identifier_type_closed_enumeration_app :
    (({} : Identifier).setType "wals" = .ok { ({} : Identifier) with type := some "wals" }) ∧
    (({} : Identifier).setType "foo" = .error .assertionError) :=
  ⟨(identifier_type_closed_enumeration {} "wals").1 (by decide),
   (identifier_type_closed_enumeration {} "foo").2.1 (by decide)⟩
/-- First language of the C3 example. -/
def langL1 : Language := { pk := 1, name := some "L1" }

/-- Second language of the C3 example. -/
def langL2 : Language := { pk := 2, name := some "L2" }

/-- First value of the C3 example, owned by L1. -/
def valEx1 : Value := { pk := 11, language := some langL1 }

/-- Second value of the C3 example, owned by L1. -/
def valEx2 : Value := { pk := 12, language := some langL1 }

/-- Third value of the C3 example, owned by L2. -/
def valEx3 : Value := { pk := 13, language := some langL2 }

/-- The C3 example parameter: three values stored pre-ordered by
language, [(L1,v1),(L1,v2),(L2,v3)]. -/
def paramEx : Parameter := { pk := 1, values := [valEx1, valEx2, valEx3] }

/-- C3 counterexample: on values [(L1,v1),(L1,v2),(L2,v3)] the generator
behind Parameter.languages yields the two bare language objects L1 then
L2; it does not yield the two (language, group) pairs the claim
describes. -/
theorem parameter_languages_yields_bare_languages_not_pairs :
    Parameter.languagesDyn paramEx =
      [LangYield.lang (some langL1), LangYield.lang (some langL2)] ∧
    Parameter.languagesDyn paramEx ≠
      [LangYield.pair (some langL1) [valEx1, valEx2],
       LangYield.pair (some langL2) [valEx3]] := by
  constructor
  · decide
  · decide

/-- C3 amended: Parameter.languages yields exactly one item per maximal
run of values with equal language, in encounter order, and the yielded
item of each run is the bare language of that run (the run of values is
destructured away, not yielded). -/
theorem parameter_languages_one_language_per_run (p : Parameter) :
    ∃ gs : List (Option Language × List Value),
      gs = groupby (fun v => v.language) p.values ∧
      p.languages = gs.map Prod.fst ∧
      (gs.map Prod.snd).flatten = p.values ∧
      (∀ g ∈ gs, g.2 ≠ [] ∧ ∀ v ∈ g.2, v.language = g.1) ∧
      gs.Chain' (fun a b => a.1 ≠ b.1) :=
  ⟨groupby (fun v => v.language) p.values, rfl, rfl,
   groupby_flatten _ _, groupby_mem _ _, groupby_chain _ _⟩

/-- C4: primary_contributors and secondary_contributors partition the
contributors of the stored associations (as a multiset), each derived
purely from the ord-sorted association list filtered by the primary flag,
and both filtered association lists are in ascending ord order. -/
theorem contribution_contributors_partition_ordered (c : Contribution) :
    List.Perm (c.primary_contributors ++ c.secondary_contributors)
      (c.contributor_assocs.map fun a => a.contributor) ∧
    c.primary_contributors =
      ((c.sortedAssocs).filter fun a => a.primary).map (fun a => a.contributor) ∧
    c.secondary_contributors =
      ((c.sortedAssocs).filter fun a => !a.primary).map (fun a => a.contributor) ∧
    List.Pairwise (fun a b => a.ord ≤ b.ord)
      ((c.sortedAssocs).filter fun a => a.primary) ∧
    List.Pairwise (fun a b => a.ord ≤ b.ord)
      ((c.sortedAssocs).filter fun a => !a.primary) := by
  have hs : List.Sorted assocOrd c.sortedAssocs :=
    List.sorted_insertionSort assocOrd c.contributor_assocs
  refine ⟨?_, rfl, rfl, ?_, ?_⟩
  · have h1 : List.Perm (((c.sortedAssocs).filter fun a => a.primary) ++
        ((c.sortedAssocs).filter fun a => !a.primary)) c.sortedAssocs :=
      List.filter_append_perm _ _
    have h2 : List.Perm c.sortedAssocs c.contributor_assocs :=
      List.perm_insertionSort assocOrd c.contributor_assocs
    have h3 := (h1.trans h2).map fun a : ContributionContributor => a.contributor
    simpa only [Contribution.primary_contributors, Contribution.secondary_contributors,
      List.map_append] using h3
  · exact List.Pairwise.sublist (List.filter_sublist _) hs
  · exact List.Pairwise.sublist (List.filter_sublist _) hs

/-- C10: an association constructed without supplying ord or primary has
ord 1 and primary true; when it belongs to a contribution its contributor
is listed in primary_contributors, and the contributor can appear in
secondary_contributors only through some other stored association whose
primary flag is false. -/
theorem default_assoc_is_primary (c : Contribution) (cb cr : Option Nat) (p : Contributor)
    (h : ContributionContributor.mkDefault cb cr p ∈ c.contributor_assocs) :
    (ContributionContributor.mkDefault cb cr p).ord = 1 ∧
    (ContributionContributor.mkDefault cb cr p).primary = true ∧
    p ∈ c.primary_contributors ∧
    (p ∈ c.secondary_contributors →
      ∃ b ∈ c.contributor_assocs, b.primary = false ∧ b.contributor = p) := by
  refine ⟨rfl, rfl, ?_, ?_⟩
  · have hmem : ContributionContributor.mkDefault cb cr p ∈ c.sortedAssocs :=
      ((List.perm_insertionSort assocOrd c.contributor_assocs).mem_iff).mpr h
    have hf : ContributionContributor.mkDefault cb cr p ∈
        (c.sortedAssocs).filter (fun a => a.primary) :=
      List.mem_filter.mpr ⟨hmem, rfl⟩
    exact List.mem_map.mpr ⟨_, hf, rfl⟩
  · intro hsec
    obtain ⟨b, hb, hbp⟩ := List.mem_map.mp hsec
    have hb2 := List.mem_filter.mp hb
    refine ⟨b, ?_, ?_, hbp⟩
    · exact ((List.perm_insertionSort assocOrd c.contributor_assocs).mem_iff).mp hb2.1
    · simpa using hb2.2

/-- Witness for C10: a default-constructed association places its
contributor among the primary contributors of a concrete contribution. -/
theorem default_assoc_is_primary_app :
    ({ name := some "A" } : Contributor) ∈
      ({ contributor_assocs :=
          [ContributionContributor.mkDefault (some 1) (some 2) { name := some "A" }] } :
        Contribution).primary_contributors :=
  (default_assoc_is_primary _ (some 1) (some 2) _ (by decide)).2.2.1

/-- C9: for every stored set of reference rows and every owner, the
references collection of a Value and of a Sentence is sorted ascending by
the citation key and consists exactly of the rows attached to that
owner. -/
theorem references_sorted_by_citation_key (vrows : List ValueReference)
    (srows : List SentenceReference) (vpk spk : Nat) :
    List.Pairwise (fun a b => a.key ≤ b.key) (valueReferences vrows vpk) ∧
    List.Perm (valueReferences vrows vpk)
      (vrows.filter fun r => r.value_pk == some vpk) ∧
    List.Pairwise (fun a b => a.key ≤ b.key) (sentenceReferences srows spk) ∧
    List.Perm (sentenceReferences srows spk)
      (srows.filter fun r => r.sentence_pk == some spk) :=
  ⟨List.sorted_insertionSort valueRefLe _,
   List.perm_insertionSort valueRefLe _,
   List.sorted_insertionSort sentenceRefLe _,
   List.perm_insertionSort sentenceRefLe _⟩

/-- C8: with pairwise distinct keys, datadict returns exactly the stored
key-value pairs, and reconstructing one data record per mapping entry
reproduces them; with duplicated keys, for every key the mapping holds
the value of the last record in iteration order. -/
theorem datadict_roundtrip_last_write_wins (e : Entity) :
    ((e.dataRecords.map fun d => d.key).Nodup →
      Entity.datadict e = .ok (e.dataRecords.map fun d => (d.key, d.value)) ∧
      ∀ m, Entity.datadict e = .ok m →
        (datadictReconstruct m).map (fun d => (d.key, d.value)) =
          e.dataRecords.map fun d => (d.key, d.value)) ∧
    ∀ (k : Option String) (m : List (Option String × Option String)),
      Entity.datadict e = .ok m →
      m.find? (fun q => q.1 == k) =
        ((e.dataRecords.map fun d => (d.key, d.value)).reverse).find?
          fun q => q.1 == k := by
  have hval : Entity.datadict e =
      .ok (pyDict (e.dataRecords.map fun d => (d.key, d.value))) := by
    rw [Entity.datadict, Entity.dataAttr, if_pos (by simp [mixinCollectionAttrs])]
    rfl
  constructor
  · intro hnd
    have hkeys : ((e.dataRecords.map fun d => (d.key, d.value)).map Prod.fst).Nodup := by
      rw [List.map_map]
      exact hnd
    have hp := pyDict_nodup _ hkeys
    constructor
    · rw [hval, hp]
    · intro m hm
      rw [hval, hp] at hm
      cases hm
      rw [datadictReconstruct, List.map_map]
      simp
  · intro k m hm
    rw [hval] at hm
    cases hm
    have hpred : (fun p : Option String × Option String => p.1 == k) =
        (fun q : Option String × Option String => decide (q.1 = k)) := by
      funext q
      by_cases hq : q.1 = k
      · simp [hq]
      · simp [hq]
    have hgen := pyDict_find? (e.dataRecords.map fun d => (d.key, d.value)) k
    have hpred2 : (fun p : Option String × Option String =>
        @BEq.beq _ instBEqOfDecidableEq p.1 k) =
        (fun q : Option String × Option String => decide (q.1 = k)) := by
      funext q
      by_cases hq : q.1 = k
      · simp [hq]
      · simp [hq]
    rw [hpred2] at hgen
    rw [hpred]
    exact hgen

/-- Witness for C8: an entity with two distinct keys serializes to the
two stored key-value pairs. -/
theorem datadict_roundtrip_last_write_wins_app :
    Entity.datadict { dataRecords := [{ key := some "a", value := some "1" },
                                      { key := some "b", value := some "2" }] } =
      .ok [(some "a", some "1"), (some "b", some "2")] :=
  ((datadict_roundtrip_last_write_wins _).1 (by decide)).1

/-- C5: filesdict never returns the name-to-file mapping: no mapped
attribute named files exists (the relationship of HasFilesMixin is
declared under the shadowed name data, and the files backref of
FilesMixin is commented out), so the attribute read inside filesdict
fails with an AttributeError; in particular it fails on an entity
carrying one attached file record. -/
theorem filesdict_raises_attribute_error :
    (∀ e : Entity, Entity.filesdict e = .error .attributeError) ∧
    Entity.filesdict
      { fileRecords := [{ name := some "chart", file := some { pk := 3 } }] } =
      .error .attributeError := by
  constructor
  · intro e
    rw [Entity.filesdict, Entity.filesAttr, if_neg (by simp [mixinCollectionAttrs])]
    rfl
  · decide

end Clld
